import Mathlib

/-!
Shallow embedding of the StudyFlow time-block scheduling core
(`Timetable.tsx` and `studyflow-store.ts`).

Instants are modelled as integer seconds since the Unix epoch on the local
wall clock (every instant the code constructs is a whole second, local time
is taken as UTC).  Calendar-day keys (the `yyyy-MM-dd` strings) are modelled
as integer epoch-day numbers; `new Date(dayKey)` is `dayKeyToInstant`.
`Date.prototype.setHours` keeps the calendar day of the receiver and
replaces the time of day (with rollover for out-of-range hours), and
`Date.prototype.getDate` returns the day of the month of the civil date,
computed here with the standard civil-from-days algorithm.
-/

namespace StudyFlow

/-- Epoch day of an instant (JS: the local calendar day of a `Date`).
`/` on `Int` is Euclidean division, which for the positive divisor 86400
is floor division, matching JS local-day extraction. -/
def dayOfInstant (t : Int) : Int := t / 86400

/-- Hour of day of an instant (JS `Date.prototype.getHours`). -/
def hourOfInstant (t : Int) : Int := t % 86400 / 3600

/-- `new Date(dayKey)` for a `yyyy-MM-dd` day key: midnight of that day. -/
def dayKeyToInstant (d : Int) : Int := d * 86400

/-- JS `Date.prototype.setHours(h, m, s)` on a whole-second instant:
keeps the receiver's calendar day and sets the time of day; hours outside
0–23 roll over into adjacent days, exactly as in JS. -/
def setHours (t h m s : Int) : Int := dayOfInstant t * 86400 + h * 3600 + m * 60 + s

/-- Day of the month (1–31) of an epoch day, by the standard
civil-from-days calendar algorithm (as used by JS `Date.prototype.getDate`). -/
def civilDayOfMonth (z : Int) : Int :=
  let z2 := z + 719468
  let era := z2 / 146097
  let doe := z2 - era * 146097
  let yoe := (doe - doe / 1460 + doe / 36524 - doe / 146096) / 365
  let doy := doe - (365 * yoe + yoe / 4 - yoe / 100)
  let mp := (5 * doy + 2) / 153
  doy - (153 * mp + 2) / 5 + 1

/-- JS `Date.prototype.getDate` on an instant. -/
def getDate (t : Int) : Int := civilDayOfMonth (dayOfInstant t)

/-! ## Data model (`studyflow-store.ts`) -/

inductive Priority
  | low
  | medium
  | high
  | urgent
deriving DecidableEq, Repr

structure Task where
  id : String
  title : String
  description : Option String
  deadline : Int
  completed : Bool
  priority : Priority
  label : String
  estimatedTime : Int
  createdAt : Int
deriving DecidableEq, Repr

structure TimeBlock where
  id : String
  taskId : Option String
  title : String
  start : Int
  «end» : Int
  day : Int
  color : Option String
deriving DecidableEq, Repr

structure StudySession where
  id : String
  taskId : Option String
  title : String
  startTime : Int
  endTime : Int
  duration : Int
  productivity : Int
  notes : Option String
deriving DecidableEq, Repr

/-- The store state: the three flat collections. -/
structure StudyFlowState where
  tasks : List Task
  timeBlocks : List TimeBlock
  studySessions : List StudySession
deriving DecidableEq, Repr

/-! ## Partial updates (`Partial<Omit<...>>` arguments) and inputs -/

/-- `Omit<Task, 'id' | 'createdAt'>`. -/
structure TaskInput where
  title : String
  description : Option String
  deadline : Int
  completed : Bool
  priority : Priority
  label : String
  estimatedTime : Int
deriving DecidableEq, Repr

/-- `Partial<Omit<Task, 'id' | 'createdAt'>>`: `none` means the field is absent. -/
structure TaskUpdate where
  title : Option String
  description : Option (Option String)
  deadline : Option Int
  completed : Option Bool
  priority : Option Priority
  label : Option String
  estimatedTime : Option Int
deriving DecidableEq, Repr

/-- `Omit<TimeBlock, 'id'>`. -/
structure TimeBlockInput where
  taskId : Option String
  title : String
  start : Int
  «end» : Int
  day : Int
  color : Option String
deriving DecidableEq, Repr

/-- `Partial<Omit<TimeBlock, 'id'>>`: `none` means the field is absent. -/
structure TimeBlockUpdate where
  taskId : Option (Option String)
  title : Option String
  start : Option Int
  «end» : Option Int
  day : Option Int
  color : Option (Option String)
deriving DecidableEq, Repr

/-- `Omit<StudySession, 'id'>`. -/
structure StudySessionInput where
  taskId : Option String
  title : String
  startTime : Int
  endTime : Int
  duration : Int
  productivity : Int
  notes : Option String
deriving DecidableEq, Repr

/-- `Partial<Omit<StudySession, 'id'>>`. -/
structure StudySessionUpdate where
  taskId : Option (Option String)
  title : Option String
  startTime : Option Int
  endTime : Option Int
  duration : Option Int
  productivity : Option Int
  notes : Option (Option String)
deriving DecidableEq, Repr

/-- TS object spread `{ ...task, ...updates }`. -/
def mergeTask (t : Task) (u : TaskUpdate) : Task :=
  { t with
    title := u.title.getD t.title
    description := u.description.getD t.description
    deadline := u.deadline.getD t.deadline
    completed := u.completed.getD t.completed
    priority := u.priority.getD t.priority
    label := u.label.getD t.label
    estimatedTime := u.estimatedTime.getD t.estimatedTime }

/-- TS object spread `{ ...block, ...updates }`. -/
def mergeTimeBlock (b : TimeBlock) (u : TimeBlockUpdate) : TimeBlock :=
  { b with
    taskId := u.taskId.getD b.taskId
    title := u.title.getD b.title
    start := u.start.getD b.start
    «end» := u.«end».getD b.«end»
    day := u.day.getD b.day
    color := u.color.getD b.color }

/-- TS object spread `{ ...session, ...updates }`. -/
def mergeStudySession (s : StudySession) (u : StudySessionUpdate) : StudySession :=
  { s with
    taskId := u.taskId.getD s.taskId
    title := u.title.getD s.title
    startTime := u.startTime.getD s.startTime
    endTime := u.endTime.getD s.endTime
    duration := u.duration.getD s.duration
    productivity := u.productivity.getD s.productivity
    notes := u.notes.getD s.notes }

/-! ## Store operations

`uuidv4()` and `new Date().toISOString()` are external inputs of the
operations and appear as explicit `id` / `now` parameters. -/

def addTask (st : StudyFlowState) (id : String) (now : Int) (t : TaskInput) : StudyFlowState :=
  { st with
    tasks := st.tasks ++ [{ id := id, title := t.title, description := t.description,
                            deadline := t.deadline, completed := t.completed,
                            priority := t.priority, label := t.label,
                            estimatedTime := t.estimatedTime, createdAt := now }] }

def updateTask (st : StudyFlowState) (id : String) (u : TaskUpdate) : StudyFlowState :=
  { st with tasks := st.tasks.map (fun t => if t.id = id then mergeTask t u else t) }

def completeTask (st : StudyFlowState) (id : String) : StudyFlowState :=
  { st with tasks := st.tasks.map (fun t => if t.id = id then { t with completed := true } else t) }

def deleteTask (st : StudyFlowState) (id : String) : StudyFlowState :=
  { st with tasks := st.tasks.filter (fun t => t.id ≠ id) }

def addTimeBlock (st : StudyFlowState) (id : String) (b : TimeBlockInput) : StudyFlowState :=
  { st with
    timeBlocks := st.timeBlocks ++ [{ id := id, taskId := b.taskId, title := b.title,
                                      start := b.start, «end» := b.«end»,
                                      day := b.day, color := b.color }] }

def updateTimeBlock (st : StudyFlowState) (id : String) (u : TimeBlockUpdate) : StudyFlowState :=
  { st with timeBlocks := st.timeBlocks.map (fun b => if b.id = id then mergeTimeBlock b u else b) }

def deleteTimeBlock (st : StudyFlowState) (id : String) : StudyFlowState :=
  { st with timeBlocks := st.timeBlocks.filter (fun b => b.id ≠ id) }

def addStudySession (st : StudyFlowState) (id : String) (s : StudySessionInput) : StudyFlowState :=
  { st with
    studySessions := st.studySessions ++ [{ id := id, taskId := s.taskId, title := s.title,
                                            startTime := s.startTime, endTime := s.endTime,
                                            duration := s.duration, productivity := s.productivity,
                                            notes := s.notes }] }

def updateStudySession (st : StudyFlowState) (id : String) (u : StudySessionUpdate) : StudyFlowState :=
  { st with studySessions := st.studySessions.map (fun s => if s.id = id then mergeStudySession s u else s) }

def deleteStudySession (st : StudyFlowState) (id : String) : StudyFlowState :=
  { st with studySessions := st.studySessions.filter (fun s => s.id ≠ id) }

/-! ## `AddTimeBlockDialog.handleAdd`

The dialog guard: nothing happens when the trimmed title is empty.
Otherwise `start = new Date(day); start.setHours(selectedHour, 0, 0)`,
`end = new Date(start); end.setHours(start.getHours() + duration, 0, 0)`,
and if `end.getDate() !== start.getDate()` then `end.setHours(23, 59, 59)`.
The result is the `Omit<TimeBlock, 'id'>` record passed to `addTimeBlock`. -/

/-- The dialog guard `!title.trim()`: the trimmed title is empty exactly when
every character of the title is whitespace. -/
def titleBlank (title : String) : Bool := title.data.all Char.isWhitespace

/-- `const start = new Date(day); start.setHours(selectedHour, 0, 0)`. -/
def addStart (selectedDay selectedHour : Int) : Int :=
  setHours (dayKeyToInstant selectedDay) selectedHour 0 0

/-- `const end = new Date(start); end.setHours(start.getHours() + duration, 0, 0)`. -/
def addPreEnd (selectedDay selectedHour duration : Int) : Int :=
  setHours (addStart selectedDay selectedHour)
    (hourOfInstant (addStart selectedDay selectedHour) + duration) 0 0

/-- The stored end: unchanged unless `end.getDate() !== start.getDate()`,
in which case `end.setHours(23, 59, 59)`. -/
def addEnd (selectedDay selectedHour duration : Int) : Int :=
  if getDate (addPreEnd selectedDay selectedHour duration)
      ≠ getDate (addStart selectedDay selectedHour)
  then setHours (addPreEnd selectedDay selectedHour duration) 23 59 59
  else addPreEnd selectedDay selectedHour duration

def handleAdd (selectedDay selectedHour duration : Int) (title color : String) :
    Option TimeBlockInput :=
  if titleBlank title then none
  else some { taskId := none, title := title,
              start := addStart selectedDay selectedHour,
              «end» := addEnd selectedDay selectedHour duration,
              day := selectedDay, color := some color }

/-! ## `TimeCell` classification -/

/-- `currentHourStart`: `new Date(day)` followed by `setHours(hour, 0, 0, 0)`. -/
def cellHourStart (day hour : Int) : Int := setHours (dayKeyToInstant day) hour 0 0

/-- `blocksForCell`: blocks that start in this hour or pass through it. -/
def blocksForCell (day hour : Int) (tbs : List TimeBlock) : List TimeBlock :=
  tbs.filter (fun b =>
    hourOfInstant b.start == hour ||
      (decide (b.start < cellHourStart day hour) && decide (cellHourStart day hour < b.«end»)))

/-- `spanningBlocks`: blocks of the cell whose start hour differs from the cell hour. -/
def spanningBlocks (day hour : Int) (tbs : List TimeBlock) : List TimeBlock :=
  (blocksForCell day hour tbs).filter (fun b => hourOfInstant b.start != hour)

/-- `startingBlocksForCell`: blocks of the cell that start in this hour
(`isFirstOccurrence`). -/
def startingBlocksForCell (day hour : Int) (tbs : List TimeBlock) : List TimeBlock :=
  (blocksForCell day hour tbs).filter (fun b => hourOfInstant b.start == hour)

/-! ## Week projection (`Timetable.weekDates` / `Timetable.weekTimeBlocks`) -/

/-- `weekDates`: `DAYS_OF_WEEK_INDICES.map((_, index) => format(addDays(weekStart, index), 'yyyy-MM-dd'))`. -/
def weekDates (weekStart : Int) : List Int :=
  (List.range 7).map (fun i => weekStart + i)

/-- `weekTimeBlocks`: `timeBlocks.filter(block => weekDates.includes(block.day))`. -/
def weekTimeBlocks (tbs : List TimeBlock) (weekStart : Int) : List TimeBlock :=
  tbs.filter (fun b => (weekDates weekStart).contains b.day)

/-! ## `Timetable.handleDragEnd` -/

/-- The resolved drop target of a drag-end event: a sortable time block
(`over.data.current.sortable`, `over.id` the block id) or a cell
(`over.data.current.day` / `over.data.current.hour`). -/
inductive OverTarget
  | block (id : String)
  | cell (day : Int) (hour : Int)
deriving DecidableEq, Repr

/-- A completed drag: the dragged block id and the resolved target
(`none` when there is no `over`). -/
structure DragEndEvent where
  activeId : String
  over : Option OverTarget
deriving DecidableEq, Repr

def handleDragEnd (st : StudyFlowState) (e : DragEndEvent) : StudyFlowState :=
  match e.over with
  | none => st
  | some (OverTarget.block oid) =>
    if e.activeId ≠ oid then
      match st.timeBlocks.find? (fun b => b.id == e.activeId),
            st.timeBlocks.find? (fun b => b.id == oid) with
      | some activeTimeBlock, some overTimeBlock =>
        let activeDuration := activeTimeBlock.«end» - activeTimeBlock.start
        let overDuration := overTimeBlock.«end» - overTimeBlock.start
        let newActiveStart := overTimeBlock.start
        let newActiveEnd := newActiveStart + activeDuration
        let newOverStart := activeTimeBlock.start
        let newOverEnd := newOverStart + overDuration
        let st1 := updateTimeBlock st activeTimeBlock.id
          { taskId := none, title := none, start := some newActiveStart,
            «end» := some newActiveEnd, day := some overTimeBlock.day, color := none }
        updateTimeBlock st1 overTimeBlock.id
          { taskId := none, title := none, start := some newOverStart,
            «end» := some newOverEnd, day := some activeTimeBlock.day, color := none }
      | _, _ => st
    else st
  | some (OverTarget.cell day hour) =>
    match st.timeBlocks.find? (fun b => b.id == e.activeId) with
    | some activeTimeBlock =>
      let durationMs := activeTimeBlock.«end» - activeTimeBlock.start
      let newStart := setHours (dayKeyToInstant day) hour 0 0
      let preEnd := newStart + durationMs
      let newEnd := if getDate preEnd ≠ getDate newStart then setHours preEnd 23 59 59 else preEnd
      updateTimeBlock st activeTimeBlock.id
        { taskId := none, title := none, start := some newStart,
          «end» := some newEnd, day := some day, color := none }
    | none => st

/-! ## Derived notions used by the stated properties -/

/-- Duration of a block, `end − start`. -/
def durOf (b : TimeBlock) : Int := b.«end» - b.start

/-- The `end > start` invariant over all blocks of the store. -/
def TimeBlockInvariant (st : StudyFlowState) : Prop :=
  ∀ b ∈ st.timeBlocks, b.start < b.«end»

instance (st : StudyFlowState) : Decidable (TimeBlockInvariant st) :=
  show Decidable (∀ b ∈ st.timeBlocks, b.start < b.«end») from inferInstance

/-! ## Helper lemmas -/

theorem mergeTimeBlock_id (b : TimeBlock) (u : TimeBlockUpdate) :
    (mergeTimeBlock b u).id = b.id := rfl

theorem find?_map_of_id_eq (g : TimeBlock → TimeBlock) (hg : ∀ c, (g c).id = c.id)
    (l : List TimeBlock) (j : String) :
    (l.map g).find? (fun c => c.id == j) = (l.find? (fun c => c.id == j)).map g := by
  induction l with
  | nil => rfl
  | cons hd tl ih =>
    by_cases h : hd.id = j
    · rw [List.map_cons, List.find?_cons_of_pos, List.find?_cons_of_pos]
      · rfl
      · simp [h]
      · simp [hg, h]
    · rw [List.map_cons, List.find?_cons_of_neg, List.find?_cons_of_neg, ih]
      · simp [h]
      · simp [hg, h]

theorem timeBlocks_updateTimeBlock (st : StudyFlowState) (i : String) (u : TimeBlockUpdate) :
    (updateTimeBlock st i u).timeBlocks
      = st.timeBlocks.map (fun b => if b.id = i then mergeTimeBlock b u else b) := rfl

theorem find?_updateTimeBlock (st : StudyFlowState) (i j : String) (u : TimeBlockUpdate) :
    (updateTimeBlock st i u).timeBlocks.find? (fun c => c.id == j)
      = (st.timeBlocks.find? (fun c => c.id == j)).map
          (fun b => if b.id = i then mergeTimeBlock b u else b) := by
  rw [timeBlocks_updateTimeBlock]
  apply find?_map_of_id_eq
  intro c
  by_cases h : c.id = i <;> simp [h, mergeTimeBlock_id]

theorem id_eq_of_find? {l : List TimeBlock} {j : String} {a : TimeBlock}
    (h : l.find? (fun c => c.id == j) = some a) : a.id = j := by
  have := List.find?_some h
  simpa using this

theorem mem_of_find? {l : List TimeBlock} {j : String} {a : TimeBlock}
    (h : l.find? (fun c => c.id == j) = some a) : a ∈ l :=
  List.mem_of_find?_eq_some h

/-- The block stored by the swap branch for the dragged block: the target's
start, its own duration, the target's day. -/
def swappedActive (a b : TimeBlock) : TimeBlock :=
  { a with start := b.start, «end» := b.start + (a.«end» - a.start), day := b.day }

/-- The block stored by the swap branch for the drop target: the dragged
block's former start, its own duration, the dragged block's former day. -/
def swappedOver (a b : TimeBlock) : TimeBlock :=
  { b with start := a.start, «end» := a.start + (b.«end» - b.start), day := a.day }

theorem handleDragEnd_swap_eq (st : StudyFlowState) (aid oid : String) (a b : TimeBlock)
    (hne : aid ≠ oid)
    (ha : st.timeBlocks.find? (fun c => c.id == aid) = some a)
    (hb : st.timeBlocks.find? (fun c => c.id == oid) = some b) :
    handleDragEnd st { activeId := aid, over := some (OverTarget.block oid) }
      = updateTimeBlock
          (updateTimeBlock st a.id
            { taskId := none, title := none, start := some b.start,
              «end» := some (b.start + (a.«end» - a.start)), day := some b.day, color := none })
          b.id
          { taskId := none, title := none, start := some a.start,
            «end» := some (a.start + (b.«end» - b.start)), day := some a.day, color := none } := by
  show (if aid ≠ oid then _ else _) = _
  rw [if_pos hne, ha, hb]

theorem find?_swap_active (st : StudyFlowState) (aid oid : String) (a b : TimeBlock)
    (hne : aid ≠ oid)
    (ha : st.timeBlocks.find? (fun c => c.id == aid) = some a)
    (hb : st.timeBlocks.find? (fun c => c.id == oid) = some b) :
    (handleDragEnd st { activeId := aid, over := some (OverTarget.block oid) }).timeBlocks.find?
        (fun c => c.id == aid) = some (swappedActive a b) := by
  have haid : a.id = aid := id_eq_of_find? ha
  have hbid : b.id = oid := id_eq_of_find? hb
  have hab : a.id ≠ b.id := by rw [haid, hbid]; exact hne
  rw [handleDragEnd_swap_eq st aid oid a b hne ha hb, find?_updateTimeBlock,
    find?_updateTimeBlock, ha]
  show some _ = some _
  congr 1
  beta_reduce
  rw [if_pos rfl, if_neg]
  · rfl
  · rw [mergeTimeBlock_id]
    exact hab

theorem find?_swap_over (st : StudyFlowState) (aid oid : String) (a b : TimeBlock)
    (hne : aid ≠ oid)
    (ha : st.timeBlocks.find? (fun c => c.id == aid) = some a)
    (hb : st.timeBlocks.find? (fun c => c.id == oid) = some b) :
    (handleDragEnd st { activeId := aid, over := some (OverTarget.block oid) }).timeBlocks.find?
        (fun c => c.id == oid) = some (swappedOver a b) := by
  have haid : a.id = aid := id_eq_of_find? ha
  have hbid : b.id = oid := id_eq_of_find? hb
  have hba : b.id ≠ a.id := by rw [haid, hbid]; exact fun h => hne h.symm
  rw [handleDragEnd_swap_eq st aid oid a b hne ha hb, find?_updateTimeBlock,
    find?_updateTimeBlock, hb]
  show some _ = some _
  congr 1
  beta_reduce
  rw [if_neg hba, if_pos rfl]
  rfl

theorem map_eq_self_of_fixed {α : Type} (l : List α) (f : α → α)
    (h : ∀ x ∈ l, f x = x) : l.map f = l := by
  induction l with
  | nil => rfl
  | cons hd tl ih =>
    rw [List.map_cons, h hd (List.mem_cons_self hd tl),
      ih (fun x hx => h x (List.mem_cons_of_mem hd hx))]

theorem filter_eq_self_of_all {α : Type} (l : List α) (p : α → Bool)
    (h : ∀ x ∈ l, p x = true) : l.filter p = l := by
  induction l with
  | nil => rfl
  | cons hd tl ih =>
    rw [List.filter_cons_of_pos (h hd (List.mem_cons_self hd tl)),
      ih (fun x hx => h x (List.mem_cons_of_mem hd hx))]

/-! ## Claim theorems -/

/-- Claim C7: a drag-end event whose source block id equals its target id
(a block dropped onto itself) performs no update: the handler returns the
store state unchanged, for every state and id. -/
theorem dropOnSelf_isNoop (st : StudyFlowState) (aid : String) :
    handleDragEnd st { activeId := aid, over := some (OverTarget.block aid) } = st := by
  show (if aid ≠ aid then _ else _) = _
  rw [if_neg (by simp)]

/-- Claim C10: the time-block store operations leave the tasks and
study-sessions collections unchanged, and the task and study-session
operations leave the time-blocks collection unchanged. -/
theorem storeOps_frame (st : StudyFlowState) (id : String) (now : Int)
    (bi : TimeBlockInput) (bu : TimeBlockUpdate) (ti : TaskInput) (tu : TaskUpdate)
    (si : StudySessionInput) (su : StudySessionUpdate) :
    ((addTimeBlock st id bi).tasks = st.tasks
      ∧ (addTimeBlock st id bi).studySessions = st.studySessions)
    ∧ ((updateTimeBlock st id bu).tasks = st.tasks
      ∧ (updateTimeBlock st id bu).studySessions = st.studySessions)
    ∧ ((deleteTimeBlock st id).tasks = st.tasks
      ∧ (deleteTimeBlock st id).studySessions = st.studySessions)
    ∧ (addTask st id now ti).timeBlocks = st.timeBlocks
    ∧ (updateTask st id tu).timeBlocks = st.timeBlocks
    ∧ (completeTask st id).timeBlocks = st.timeBlocks
    ∧ (deleteTask st id).timeBlocks = st.timeBlocks
    ∧ (addStudySession st id si).timeBlocks = st.timeBlocks
    ∧ (updateStudySession st id su).timeBlocks = st.timeBlocks
    ∧ (deleteStudySession st id).timeBlocks = st.timeBlocks :=
  ⟨⟨rfl, rfl⟩, ⟨rfl, rfl⟩, ⟨rfl, rfl⟩, rfl, rfl, rfl, rfl, rfl, rfl, rfl⟩

/-- Claim C9: for any week anchor, the week projection yields exactly the 7
day keys from the anchor through anchor + 6 in that fixed order; the filtered
list contains exactly the blocks whose day key is among them; and recomputing
from the same inputs yields identical results. -/
theorem weekProjection_correct (ws : Int) (tbs : List TimeBlock) :
    weekDates ws = [ws, ws + 1, ws + 2, ws + 3, ws + 4, ws + 5, ws + 6]
    ∧ (∀ b, b ∈ weekTimeBlocks tbs ws ↔ b ∈ tbs ∧ b.day ∈ weekDates ws)
    ∧ weekDates ws = weekDates ws
    ∧ weekTimeBlocks tbs ws = weekTimeBlocks tbs ws := by
  refine ⟨?_, ?_, rfl, rfl⟩
  · show [ws + (0 : Nat), ws + (1 : Nat), ws + (2 : Nat), ws + (3 : Nat),
      ws + (4 : Nat), ws + (5 : Nat), ws + (6 : Nat)] = _
    norm_num
  · intro b
    rw [weekTimeBlocks, List.mem_filter]
    constructor
    · rintro ⟨hb, hc⟩
      exact ⟨hb, by simpa [List.elem_iff] using hc⟩
    · rintro ⟨hb, hc⟩
      exact ⟨hb, by simpa [List.elem_iff] using hc⟩

/-- Claim C8: updating or deleting a time block by an id not present in the
collection is a silent no-op that leaves the entire store state unchanged;
when the id is present, update stores the record with exactly the supplied
fields merged in. -/
theorem updateDelete_notFound_noop (st : StudyFlowState) (i : String) (u : TimeBlockUpdate) :
    (i ∉ st.timeBlocks.map TimeBlock.id →
      updateTimeBlock st i u = st ∧ deleteTimeBlock st i = st)
    ∧ (∀ a, st.timeBlocks.find? (fun c => c.id == i) = some a →
        (updateTimeBlock st i u).timeBlocks.find? (fun c => c.id == i)
          = some (mergeTimeBlock a u)) := by
  constructor
  · intro hni
    have hid : ∀ b ∈ st.timeBlocks, b.id ≠ i := by
      intro b hb h
      exact hni (h ▸ List.mem_map_of_mem TimeBlock.id hb)
    constructor
    · show { st with timeBlocks := _ } = st
      rw [map_eq_self_of_fixed _ _ (fun b hb => if_neg (hid b hb))]
    · show { st with timeBlocks := _ } = st
      rw [filter_eq_self_of_all _ _ (fun b hb => by simpa using hid b hb)]
  · intro a ha
    rw [find?_updateTimeBlock, ha]
    show some _ = some _
    congr 1
    beta_reduce
    rw [if_pos (id_eq_of_find? ha)]

/-- The end instant stored by the block-to-cell branch of `handleDragEnd`
for a moved block: new start plus the block's duration, run through the
code's end-of-day check. -/
def movedEnd (a : TimeBlock) (day hour : Int) : Int :=
  let newStart := setHours (dayKeyToInstant day) hour 0 0
  let preEnd := newStart + (a.«end» - a.start)
  if getDate preEnd ≠ getDate newStart then setHours preEnd 23 59 59 else preEnd

theorem handleDragEnd_cell_eq (st : StudyFlowState) (aid : String) (a : TimeBlock)
    (day hour : Int)
    (ha : st.timeBlocks.find? (fun c => c.id == aid) = some a) :
    handleDragEnd st { activeId := aid, over := some (OverTarget.cell day hour) }
      = updateTimeBlock st a.id
          { taskId := none, title := none,
            start := some (setHours (dayKeyToInstant day) hour 0 0),
            «end» := some (movedEnd a day hour), day := some day, color := none } := by
  simp only [handleDragEnd, ha, movedEnd]

theorem find?_cell_move (st : StudyFlowState) (aid : String) (a : TimeBlock)
    (day hour : Int)
    (ha : st.timeBlocks.find? (fun c => c.id == aid) = some a) :
    (handleDragEnd st { activeId := aid, over := some (OverTarget.cell day hour) }).timeBlocks.find?
        (fun c => c.id == aid)
      = some { a with start := setHours (dayKeyToInstant day) hour 0 0,
                      «end» := movedEnd a day hour, day := day } := by
  rw [handleDragEnd_cell_eq st aid a day hour ha, find?_updateTimeBlock, ha]
  show some _ = some _
  congr 1
  beta_reduce
  rw [if_pos rfl]
  rfl

/-- Claim C3: after a block-to-block swap of distinct blocks, the dragged
block adopts the target's pre-swap start and day and keeps its own duration,
with its new end computed as adopted start plus own duration, and
symmetrically for the target block. -/
theorem swap_symmetry (st : StudyFlowState) (aid oid : String) (a b : TimeBlock)
    (hne : aid ≠ oid)
    (ha : st.timeBlocks.find? (fun c => c.id == aid) = some a)
    (hb : st.timeBlocks.find? (fun c => c.id == oid) = some b) :
    ((handleDragEnd st { activeId := aid, over := some (OverTarget.block oid) }).timeBlocks.find?
        (fun c => c.id == aid) = some (swappedActive a b))
    ∧ ((handleDragEnd st { activeId := aid, over := some (OverTarget.block oid) }).timeBlocks.find?
        (fun c => c.id == oid) = some (swappedOver a b))
    ∧ (swappedActive a b).start = b.start
    ∧ (swappedOver a b).start = a.start
    ∧ (swappedActive a b).day = b.day
    ∧ (swappedOver a b).day = a.day
    ∧ durOf (swappedActive a b) = durOf a
    ∧ durOf (swappedOver a b) = durOf b
    ∧ (swappedActive a b).«end» = (swappedActive a b).start + durOf a
    ∧ (swappedOver a b).«end» = (swappedOver a b).start + durOf b := by
  refine ⟨find?_swap_active st aid oid a b hne ha hb,
    find?_swap_over st aid oid a b hne ha hb, rfl, rfl, rfl, rfl, ?_, ?_, rfl, rfl⟩
  · show b.start + (a.«end» - a.start) - b.start = a.«end» - a.start
    ring
  · show a.start + (b.«end» - b.start) - a.start = b.«end» - b.start
    ring

/-- Claim C2 (amended): a block-to-block swap always preserves the moved
block's duration, and a block-to-cell move preserves it whenever the
end-of-day check does not fire (the computed end stays on the start's
day of month). -/
theorem move_duration_preserved (st : StudyFlowState) (aid : String) (a : TimeBlock)
    (ha : st.timeBlocks.find? (fun c => c.id == aid) = some a) :
    (∀ oid b, aid ≠ oid → st.timeBlocks.find? (fun c => c.id == oid) = some b →
      ((handleDragEnd st { activeId := aid, over := some (OverTarget.block oid) }).timeBlocks.find?
          (fun c => c.id == aid)).map durOf = some (durOf a))
    ∧ (∀ day hour,
        getDate (setHours (dayKeyToInstant day) hour 0 0 + durOf a)
          = getDate (setHours (dayKeyToInstant day) hour 0 0) →
        ((handleDragEnd st { activeId := aid, over := some (OverTarget.cell day hour) }).timeBlocks.find?
            (fun c => c.id == aid)).map durOf = some (durOf a)) := by
  constructor
  · intro oid b hne hb
    rw [find?_swap_active st aid oid a b hne ha hb]
    show some _ = some _
    congr 1
    show b.start + (a.«end» - a.start) - b.start = durOf a
    rw [durOf]
    ring
  · intro day hour hnc
    rw [find?_cell_move st aid a day hour ha]
    show some _ = some _
    congr 1
    show movedEnd a day hour - setHours (dayKeyToInstant day) hour 0 0 = durOf a
    rw [movedEnd]
    show (if _ then _ else _) - _ = _
    rw [if_neg (not_not_intro (by rw [durOf] at hnc; exact hnc))]
    rw [durOf]
    ring

/-- Claim C4 (amended): a block-to-cell move stores, in a single update for
the moved block, start = target day at the target hour with minute and
second zeroed, day = the target day key, and end = new start plus the
block's original duration, except that when the computed end lands on a
different day of month than the new start the code stores 23:59:59 of the
computed end's day; title, color and taskId are unchanged. -/
theorem cellMove_result (st : StudyFlowState) (aid : String) (a : TimeBlock)
    (day hour : Int)
    (ha : st.timeBlocks.find? (fun c => c.id == aid) = some a) :
    ((handleDragEnd st { activeId := aid, over := some (OverTarget.cell day hour) }).timeBlocks.find?
        (fun c => c.id == aid)
      = some { a with start := setHours (dayKeyToInstant day) hour 0 0,
                      «end» := movedEnd a day hour, day := day })
    ∧ setHours (dayKeyToInstant day) hour 0 0 = dayKeyToInstant day + hour * 3600
    ∧ setHours (dayKeyToInstant day) hour 0 0 % 3600 = 0
    ∧ (0 ≤ hour → hour ≤ 23 →
        dayOfInstant (setHours (dayKeyToInstant day) hour 0 0) = day
        ∧ hourOfInstant (setHours (dayKeyToInstant day) hour 0 0) = hour)
    ∧ (getDate (setHours (dayKeyToInstant day) hour 0 0 + durOf a)
          = getDate (setHours (dayKeyToInstant day) hour 0 0) →
        movedEnd a day hour = setHours (dayKeyToInstant day) hour 0 0 + durOf a) := by
  refine ⟨find?_cell_move st aid a day hour ha, ?_, ?_, ?_, ?_⟩
  · simp only [setHours, dayKeyToInstant, dayOfInstant]
    omega
  · simp only [setHours, dayKeyToInstant, dayOfInstant]
    omega
  · intro h0 h23
    simp only [setHours, dayKeyToInstant, dayOfInstant, hourOfInstant]
    omega
  · intro hnc
    rw [movedEnd]
    show (if _ then _ else _) = _
    rw [if_neg (not_not_intro (by rw [durOf] at hnc; exact hnc))]
    rw [durOf]

/-! ## Equation helpers for the remaining branches of `handleDragEnd` -/

theorem handleDragEnd_none_eq (st : StudyFlowState) (aid : String) :
    handleDragEnd st { activeId := aid, over := none } = st := rfl

theorem handleDragEnd_block_self_eq (st : StudyFlowState) (aid : String) :
    handleDragEnd st { activeId := aid, over := some (OverTarget.block aid) } = st := by
  show (if aid ≠ aid then _ else _) = _
  rw [if_neg (by simp)]

theorem handleDragEnd_block_activeMissing (st : StudyFlowState) (aid oid : String)
    (h : st.timeBlocks.find? (fun b => b.id == aid) = none) :
    handleDragEnd st { activeId := aid, over := some (OverTarget.block oid) } = st := by
  by_cases hne : aid = oid
  · subst hne
    exact handleDragEnd_block_self_eq st aid
  · show (if aid ≠ oid then _ else _) = _
    rw [if_pos hne, h]

theorem handleDragEnd_block_overMissing (st : StudyFlowState) (aid oid : String)
    (a : TimeBlock)
    (ha : st.timeBlocks.find? (fun b => b.id == aid) = some a)
    (h : st.timeBlocks.find? (fun b => b.id == oid) = none) :
    handleDragEnd st { activeId := aid, over := some (OverTarget.block oid) } = st := by
  by_cases hne : aid = oid
  · subst hne
    exact handleDragEnd_block_self_eq st aid
  · show (if aid ≠ oid then _ else _) = _
    rw [if_pos hne, ha, h]

theorem handleDragEnd_cell_missing (st : StudyFlowState) (aid : String) (day hour : Int)
    (h : st.timeBlocks.find? (fun b => b.id == aid) = none) :
    handleDragEnd st { activeId := aid, over := some (OverTarget.cell day hour) } = st := by
  simp only [handleDragEnd, h]

/-! ## Arithmetic facts about the constructed instants -/

theorem addStart_eq (day hour : Int) : addStart day hour = day * 86400 + hour * 3600 := by
  simp only [addStart, setHours, dayKeyToInstant, dayOfInstant]
  omega

theorem addPreEnd_eq (day hour dur : Int) :
    addPreEnd day hour dur = addStart day hour + dur * 3600 := by
  simp only [addPreEnd, addStart, setHours, dayKeyToInstant, dayOfInstant, hourOfInstant]
  omega

theorem dayOfInstant_ne_of_getDate_ne {s t : Int} (h : getDate s ≠ getDate t) :
    dayOfInstant s ≠ dayOfInstant t :=
  fun hh => h (congrArg civilDayOfMonth hh)

theorem addEnd_gt (day hour dur : Int) (h : 1 ≤ dur) :
    addStart day hour < addEnd day hour dur := by
  rw [addEnd]
  split
  · next hcl =>
    have hd := dayOfInstant_ne_of_getDate_ne hcl
    have hpe := addPreEnd_eq day hour dur
    simp only [setHours, dayOfInstant] at hd ⊢
    omega
  · next hcl =>
    have hpe := addPreEnd_eq day hour dur
    omega

theorem movedEnd_gt (a : TimeBlock) (day hour : Int) (h : a.start < a.«end») :
    setHours (dayKeyToInstant day) hour 0 0 < movedEnd a day hour := by
  simp only [movedEnd]
  split
  · next hcl =>
    have hd := dayOfInstant_ne_of_getDate_ne hcl
    simp only [setHours, dayKeyToInstant, dayOfInstant] at hd ⊢
    omega
  · next hcl =>
    omega

/-- Invariant preservation through one `updateTimeBlock`, provided the merged
record of every matching block satisfies the invariant. -/
theorem invariant_update (st : StudyFlowState) (i : String) (u : TimeBlockUpdate)
    (hinv : TimeBlockInvariant st)
    (hu : ∀ b ∈ st.timeBlocks, b.id = i →
      (mergeTimeBlock b u).start < (mergeTimeBlock b u).«end») :
    TimeBlockInvariant (updateTimeBlock st i u) := by
  intro c hc
  rw [timeBlocks_updateTimeBlock] at hc
  obtain ⟨c0, hc0, rfl⟩ := List.mem_map.mp hc
  by_cases h : c0.id = i
  · beta_reduce
    rw [if_pos h]
    exact hu c0 hc0 h
  · beta_reduce
    rw [if_neg h]
    exact hinv c0 hc0

theorem timeBlocks_of_update (st : StudyFlowState) (i : String) (u : TimeBlockUpdate)
    (b : TimeBlock) (hb : b ∈ st.timeBlocks) :
    (if b.id = i then mergeTimeBlock b u else b) ∈ (updateTimeBlock st i u).timeBlocks := by
  rw [timeBlocks_updateTimeBlock]
  exact List.mem_map_of_mem _ hb

/-- A block from 09:00 to 11:00 of day 19723 (2024-01-01), used by the
cell-classification scenario. -/
def blkNine : TimeBlock :=
  { id := "e", taskId := none, title := "E",
    start := 19723 * 86400 + 9 * 3600, «end» := 19723 * 86400 + 11 * 3600,
    day := 19723, color := none }

/-- Claim C5 (amended): a block of a cell's day is starting in the cell iff
its start's hour of day equals the cell's hour; it is spanning iff it covers
the cell's hour boundary strictly and, additionally, its start's hour of day
differs from the cell's hour.  The 09:00–11:00 block is starting at 09:00,
spanning at 10:00, and absent from the 08:00 and 11:00 cells. -/
theorem cellClassification :
    (∀ (day hour : Int) (tbs : List TimeBlock) (b : TimeBlock),
      (b ∈ startingBlocksForCell day hour tbs ↔ b ∈ tbs ∧ hourOfInstant b.start = hour)
      ∧ (b ∈ spanningBlocks day hour tbs ↔
          b ∈ tbs ∧ b.start < cellHourStart day hour ∧ cellHourStart day hour < b.«end»
            ∧ hourOfInstant b.start ≠ hour))
    ∧ (blkNine ∈ startingBlocksForCell 19723 9 [blkNine]
      ∧ blkNine ∈ spanningBlocks 19723 10 [blkNine]
      ∧ blkNine ∉ startingBlocksForCell 19723 10 [blkNine]
      ∧ blkNine ∉ spanningBlocks 19723 9 [blkNine]
      ∧ blkNine ∉ blocksForCell 19723 8 [blkNine]
      ∧ blkNine ∉ blocksForCell 19723 11 [blkNine]) := by
  constructor
  · intro day hour tbs b
    constructor
    · simp only [startingBlocksForCell, blocksForCell, List.mem_filter, Bool.or_eq_true,
        Bool.and_eq_true, decide_eq_true_eq, beq_iff_eq, bne_iff_ne]
      tauto
    · simp only [spanningBlocks, blocksForCell, List.mem_filter, Bool.or_eq_true,
        Bool.and_eq_true, decide_eq_true_eq, beq_iff_eq, bne_iff_ne]
      tauto
  · exact ⟨by decide, by decide, by decide, by decide, by decide, by decide⟩

/-- A block whose `day` key is 19724 but whose start instant lies on the
previous calendar day at hour 9, covering the 09:00 boundary of day 19724. -/
def blkSkew : TimeBlock :=
  { id := "w", taskId := none, title := "W",
    start := 19723 * 86400 + 9 * 3600, «end» := 19724 * 86400 + 10 * 3600,
    day := 19724, color := none }

/-- Counterexample to claim C5 as stated: this block starts strictly before
the 09:00 boundary of day 19724 and ends strictly after it, yet the code does
not classify it as spanning there (its start's hour of day equals 9, so it is
classified as starting instead). -/
theorem cellClassification_counterexample :
    blkSkew.day = 19724
    ∧ blkSkew.start < cellHourStart 19724 9
    ∧ cellHourStart 19724 9 < blkSkew.«end»
    ∧ blkSkew ∉ spanningBlocks 19724 9 [blkSkew]
    ∧ blkSkew ∈ startingBlocksForCell 19724 9 [blkSkew] := by
  refine ⟨rfl, by decide, by decide, by decide, by decide⟩

/-- Claim C6: `end > start` holds for all blocks after any completed drag
move (block-to-cell or swap) and after any dialog create with a positive
whole-hour duration, given that it held for all blocks beforehand. -/
theorem invariant_preserved :
    (∀ st e, TimeBlockInvariant st → TimeBlockInvariant (handleDragEnd st e))
    ∧ (∀ st id day hour dur (title color : String) blk,
        1 ≤ dur → handleAdd day hour dur title color = some blk →
        TimeBlockInvariant st → TimeBlockInvariant (addTimeBlock st id blk)) := by
  constructor
  · intro st e hinv
    obtain ⟨aid, ov⟩ := e
    rcases ov with _ | tgt
    · rw [handleDragEnd_none_eq]
      exact hinv
    · rcases tgt with oid | ⟨day, hour⟩
      · by_cases hne : aid = oid
        · subst hne
          rw [handleDragEnd_block_self_eq]
          exact hinv
        · cases hfa : st.timeBlocks.find? (fun b => b.id == aid) with
          | none =>
            rw [handleDragEnd_block_activeMissing st aid oid hfa]
            exact hinv
          | some a =>
            cases hfb : st.timeBlocks.find? (fun b => b.id == oid) with
            | none =>
              rw [handleDragEnd_block_overMissing st aid oid a hfa hfb]
              exact hinv
            | some b =>
              rw [handleDragEnd_swap_eq st aid oid a b hne hfa hfb]
              have hda := hinv a (mem_of_find? hfa)
              have hdb := hinv b (mem_of_find? hfb)
              apply invariant_update
              · apply invariant_update _ _ _ hinv
                intro c _ _
                show b.start < b.start + (a.«end» - a.start)
                omega
              · intro c _ _
                show a.start < a.start + (b.«end» - b.start)
                omega
      · cases hfa : st.timeBlocks.find? (fun b => b.id == aid) with
        | none =>
          rw [handleDragEnd_cell_missing st aid day hour hfa]
          exact hinv
        | some a =>
          rw [handleDragEnd_cell_eq st aid a day hour hfa]
          apply invariant_update _ _ _ hinv
          intro c _ _
          show setHours (dayKeyToInstant day) hour 0 0 < movedEnd a day hour
          exact movedEnd_gt a day hour (hinv a (mem_of_find? hfa))
  · intro st id day hour dur title color blk hdur hsome hinv
    cases hbt : titleBlank title with
    | true =>
      simp [handleAdd, hbt] at hsome
    | false =>
      simp only [handleAdd, hbt, Bool.false_eq_true, if_false] at hsome
      intro c hc
      rcases List.mem_append.mp hc with h | h
      · exact hinv c h
      · rw [List.mem_singleton] at h
        subst h
        have hblk := Option.some.inj hsome
        show blk.start < blk.«end»
        rw [← hblk]
        show addStart day hour < addEnd day hour dur
        exact addEnd_gt day hour dur hdur

/-! ## Concrete states and scenarios -/

/-- A 2-hour block, 09:00–11:00 of day 19723 (2024-01-01). -/
def blkTwoHour : TimeBlock :=
  { id := "a", taskId := none, title := "T",
    start := 19723 * 86400 + 9 * 3600, «end» := 19723 * 86400 + 11 * 3600,
    day := 19723, color := none }

/-- A 3-hour block, 14:00–17:00 of day 19725 (2024-01-03). -/
def blkThreeHour : TimeBlock :=
  { id := "b", taskId := none, title := "S",
    start := 19725 * 86400 + 14 * 3600, «end» := 19725 * 86400 + 17 * 3600,
    day := 19725, color := some "bg-blue-200" }

def stOne : StudyFlowState := { tasks := [], timeBlocks := [blkTwoHour], studySessions := [] }

def stTwo : StudyFlowState :=
  { tasks := [], timeBlocks := [blkTwoHour, blkThreeHour], studySessions := [] }

def stEmpty : StudyFlowState := { tasks := [], timeBlocks := [], studySessions := [] }

/-- Claim C1: creating a block on 2024-01-01 (epoch day 19723) at 23:00 with
a requested duration of 3 hours stores end = 23:59:59 of 2024-01-02 (epoch
day 19724) — 23:59:59 of the day the overflowed end falls on — and not
23:59:59 of the start day as the claim and the code's own comment require. -/
theorem addClamp_landsOnNextDay :
    handleAdd 19723 23 3 "Study" "bg-red-200"
      = some { taskId := none, title := "Study", start := 1704150000, «end» := 1704239999,
               day := 19723, color := some "bg-red-200" }
    ∧ dayOfInstant 1704150000 = 19723
    ∧ dayOfInstant 1704239999 = 19724
    ∧ (1704239999 : Int) = dayKeyToInstant 19724 + 86399
    ∧ (1704239999 : Int) ≠ dayKeyToInstant 19723 + 86399 :=
  ⟨by decide, by decide, by decide, by decide, by decide⟩

/-- Counterexample to claim C2 as stated: moving the 2-hour block into the
cell (day 19724, hour 23) triggers the end-of-day check and stores a block
of duration 89999 seconds (≈ 25 hours), not the original 7200 seconds. -/
theorem moveDuration_counterexample :
    durOf blkTwoHour = 7200
    ∧ ((handleDragEnd stOne { activeId := "a", over := some (OverTarget.cell 19724 23) }
        ).timeBlocks.find? (fun c => c.id == "a")).map durOf = some 89999
    ∧ (89999 : Int) ≠ 7200 :=
  ⟨by decide, by decide, by decide⟩

/-- Witness for claim C2: a concrete swap and a concrete unclamped cell move
both preserve the moved block's duration. -/
theorem moveDuration_witness :
    ((handleDragEnd stTwo { activeId := "a", over := some (OverTarget.block "b") }
        ).timeBlocks.find? (fun c => c.id == "a")).map durOf = some (durOf blkTwoHour)
    ∧ ((handleDragEnd stOne { activeId := "a", over := some (OverTarget.cell 19724 14) }
        ).timeBlocks.find? (fun c => c.id == "a")).map durOf = some (durOf blkTwoHour) := by
  have h1 := move_duration_preserved stTwo "a" blkTwoHour (by decide)
  have h2 := move_duration_preserved stOne "a" blkTwoHour (by decide)
  exact ⟨h1.1 "b" blkThreeHour (by decide) (by decide), h2.2 19724 14 (by decide)⟩

/-- Witness for claim C3: in a concrete two-block store, dragging block "a"
onto block "b" stores exactly the swapped records. -/
theorem swap_symmetry_witness :
    ((handleDragEnd stTwo { activeId := "a", over := some (OverTarget.block "b") }
        ).timeBlocks.find? (fun c => c.id == "a") = some (swappedActive blkTwoHour blkThreeHour))
    ∧ ((handleDragEnd stTwo { activeId := "a", over := some (OverTarget.block "b") }
        ).timeBlocks.find? (fun c => c.id == "b") = some (swappedOver blkTwoHour blkThreeHour)) := by
  have h := swap_symmetry stTwo "a" "b" blkTwoHour blkThreeHour (by decide) (by decide) (by decide)
  exact ⟨h.1, h.2.1⟩

/-- Counterexample to claim C4 as stated: moving the 2-hour block into the
cell (day 19724, hour 23) stores end 1704326399 = 23:59:59 of day 19725,
which is neither the new start plus the original duration nor 23:59:59 of
the target day (the clamp described by the specification). -/
theorem cellMove_counterexample :
    ((handleDragEnd stOne { activeId := "a", over := some (OverTarget.cell 19724 23) }
        ).timeBlocks.find? (fun c => c.id == "a")).map (fun c => c.«end») = some 1704326399
    ∧ (1704326399 : Int) ≠ setHours (dayKeyToInstant 19724) 23 0 0 + durOf blkTwoHour
    ∧ (1704326399 : Int) ≠ dayKeyToInstant 19724 + 86399
    ∧ dayOfInstant 1704326399 = 19725 :=
  ⟨by decide, by decide, by decide, by decide⟩

/-- Witness for claim C4: moving the 2-hour block from (day 19723, 09:00)
into the empty cell (day 19724, hour 14) yields start = day 19724 at 14:00,
end = day 19724 at 16:00, day = 19724, other fields unchanged. -/
theorem cellMove_witness :
    (handleDragEnd stOne { activeId := "a", over := some (OverTarget.cell 19724 14) }
        ).timeBlocks.find? (fun c => c.id == "a")
      = some { blkTwoHour with start := 19724 * 86400 + 14 * 3600,
                               «end» := 19724 * 86400 + 16 * 3600, day := 19724 } := by
  have h := (cellMove_result stOne "a" blkTwoHour 19724 14 (by decide)).1
  rw [h]
  decide

/-- Witness for claim C6: the invariant survives a concrete clamped cell
move and a concrete dialog create. -/
theorem invariant_preserved_witness :
    TimeBlockInvariant
      (handleDragEnd stOne { activeId := "a", over := some (OverTarget.cell 19724 23) })
    ∧ TimeBlockInvariant (addTimeBlock stEmpty "n1"
        { taskId := none, title := "Study", start := 1704099600, «end» := 1704103200,
          day := 19723, color := some "c" }) :=
  ⟨invariant_preserved.1 stOne _ (by decide),
   invariant_preserved.2 stEmpty "n1" 19723 9 1 "Study" "c" _ (by decide) (by decide) (by decide)⟩

/-- Witness for claim C8: updating or deleting by the absent id "z" leaves
the one-block store unchanged, and updating by the present id "a" stores
the merged record. -/
theorem updateDelete_witness :
    (updateTimeBlock stOne "z"
        { taskId := none, title := some "U", start := none, «end» := none,
          day := none, color := none } = stOne
      ∧ deleteTimeBlock stOne "z" = stOne)
    ∧ (updateTimeBlock stOne "a"
        { taskId := none, title := some "U", start := none, «end» := none,
          day := none, color := none }).timeBlocks.find? (fun c => c.id == "a")
        = some (mergeTimeBlock blkTwoHour
            { taskId := none, title := some "U", start := none, «end» := none,
              day := none, color := none }) :=
  ⟨(updateDelete_notFound_noop stOne "z" _).1 (by decide),
   (updateDelete_notFound_noop stOne "a" _).2 blkTwoHour (by decide)⟩

end StudyFlow
